import Mathlib

/-!
# Verification of the snapcraft push workflow and application metadata

This development embeds, in Lean, the parts of the snapcraft repository that
its specification talks about:

* `Application.to_dict` (from `snapcraft/internal/meta/application.py`), over a
  small model of Python dictionaries preserving insertion order; and
* the store push workflow with delta upload, fallback and content-addressed
  cache pruning.  The implementation of that workflow (`snapcraft/_store.py`,
  `snapcraft/storeapi` and the snap cache) is not part of the source excerpt —
  only its unit tests are — so those definitions are modelled from the
  specification's state machine (spec §4.1 ContentCache, §4.2 UploadPlanner,
  §6, §7) and cross-checked against the expectations of
  `tests/unit/commands/test_push.py`.
-/

namespace Snapcraft

/-! ## Ordered dictionaries (model of Python `dict`)

A Python `dict` preserves insertion order; assignment to an existing key
replaces the value in place, assignment to a fresh key appends.  We model a
dict as an association list with (in well-formed use) distinct keys. -/

/-- Values stored in an app metadata dictionary: strings, ints, the
`yaml_utils.OctInt` wrapper, string lists (command chains), nested dicts
(sockets) and booleans. -/
inductive Val : Type where
  | str : String → Val
  | int : Nat → Val
  | oct : Nat → Val
  | list : List String → Val
  | dict : List (String × Val) → Val
  | bool : Bool → Val

/-- `d[k]` lookup: the first binding of `k`, if any. -/
def lookupD : List (String × Val) → String → Option Val
  | [], _ => none
  | kv :: rest, k => if kv.1 = k then some kv.2 else lookupD rest k

/-- `d[k] = v` assignment: replace the binding of `k` in place, or append a new
binding when the key is absent. -/
def setKey : List (String × Val) → String → Val → List (String × Val)
  | [], k, v => [(k, v)]
  | kv :: rest, k, v =>
    if kv.1 = k then (k, v) :: rest else kv :: setKey rest k v

/-- `d.pop(k)` restricted to its removal effect: drop the binding of `k`. -/
def removeKey : List (String × Val) → String → List (String × Val)
  | [], _ => []
  | kv :: rest, k =>
    if kv.1 = k then removeKey rest k else kv :: removeKey rest k

/-- `d.update(p)`: assign every binding of `p` into `d`, in order. -/
def updateD (d p : List (String × Val)) : List (String × Val) :=
  p.foldl (fun acc kv => setKey acc kv.1 kv.2) d

/-! ## `Application` (from `snapcraft/internal/meta/application.py`) -/

/-- An app entry of snapcraft.yaml.  `commands` maps a command entry name
(`command`, `stop-command`) to the command string held by the corresponding
`Command` object; the other fields mirror the Python attributes.  Python's
`None` defaults for the list/dict arguments are the empty list here. -/
structure Application where
  app_name : String
  app_properties : List (String × Val)
  adapter : Option String
  desktop : Option String
  command_chain : List String
  prepend_command_chain : List String
  passthrough : List (String × Val)
  commands : List (String × String)

/-- `yaml_utils.OctInt(mode)` applied to a socket-mode value (an int per the
validated schema). -/
def octify : Val → Val
  | .int n => .oct n
  | v => v

/-- The in-place adjustment of one socket dict: if it has a `socket-mode`
binding, wrap that value in `OctInt`. -/
def adjustSocketEntry : Val → Val
  | .dict fields =>
    .dict (fields.map (fun kv =>
      if kv.1 = "socket-mode" then (kv.1, octify kv.2) else kv))
  | v => v

/-- The value of a `sockets` entry after the socket-mode pass: each socket's
`socket-mode` is wrapped; a non-dict value is left alone (the schema
guarantees a dict of dicts). -/
def adjustSocketsVal : Val → Val
  | .dict socks => .dict (socks.map (fun s => (s.1, adjustSocketEntry s.2)))
  | v => v

/-- The sockets pass of `to_dict`: `app_dict.get("sockets", dict())` and then
each socket's `socket-mode` is wrapped in place; when no `sockets` entry
exists nothing changes. -/
def adjustSockets : List (String × Val) → List (String × Val)
  | [] => []
  | kv :: rest =>
    (if kv.1 = "sockets" then (kv.1, adjustSocketsVal kv.2) else kv) ::
      adjustSockets rest

/-- `Application.to_dict` (`application.py` lines 173–198): starting from a
deep copy of `_app_properties`, write the command entries, set `command-chain`
to `prepend_command_chain + command_chain` when either is truthy, adjust
socket modes, strip the `adapter` and `desktop` keys, and finally apply the
`passthrough` bindings. -/
def Application.to_dict (a : Application) : List (String × Val) :=
  let d0 := a.app_properties
  let d1 := a.commands.foldl (fun d c => setKey d c.1 (Val.str c.2)) d0
  let d2 :=
    if a.prepend_command_chain ≠ [] ∨ a.command_chain ≠ [] then
      setKey d1 "command-chain" (Val.list (a.prepend_command_chain ++ a.command_chain))
    else d1
  let d3 := adjustSockets d2
  let d4 := removeKey (removeKey d3 "adapter") "desktop"
  updateD d4 a.passthrough

/-! ## ContentCache (spec §4.1)

Modelled from the spec: the snap cache implementation is not part of the
source excerpt.  A namespace's cache directory is a list of file names;
a cached artifact is stored under its content hash. -/

/-- Whether the first character list starts with the second.  (Stated over
`List Char` so that ground instances evaluate by kernel reduction.) -/
def charsStartWith : List Char → List Char → Bool
  | _, [] => true
  | [], _ :: _ => false
  | c :: cs, d :: ds => c = d && charsStartWith cs ds

/-- A separator-free rendering of one artifact byte. -/
def natTag : Nat → List Char
  | 0 => []
  | n + 1 => 'i' :: natTag n

/-- A rendering of the artifact bytes, one `-`-terminated group per byte;
injective because `natTag` never produces the separator. -/
def natsTag : List Nat → List Char
  | [] => []
  | n :: rest => natTag n ++ ('-' :: natsTag rest)

/-- Modelled from the spec: the content-hashing primitive
(`file_utils.calculate_sha3_384` in the repository, absent from the excerpt).
Modelled as an injective digest of the artifact bytes whose rendering is
recognizable as a hash name. -/
def contentHash (artifact : List Nat) : String :=
  "sha3-384-" ++ String.mk (natsTag artifact)

/-- Modelled from the spec: whether a cache file name matches the recognized
content-hash naming convention (spec §4.1, edge case; §6 cache layout). -/
def isHashName (name : String) : Bool :=
  charsStartWith name.data ("sha3-384-" : String).data

/-- Modelled from the spec: `find_previous(namespace)` returns the previously
cached artifact for the namespace, or nothing; names not matching the hash
convention are ignored by lookups. -/
def find_previous (dir : List String) : Option String :=
  dir.find? isHashName

/-- Modelled from the spec: `store(namespace, content_hash, bytes)` writes a
new entry under the content hash (a directory holds one file per name). -/
def cacheStore (dir : List String) (hash : String) : List String :=
  if hash ∈ dir then dir else dir ++ [hash]

/-- Modelled from the spec: `prune(namespace, keep_hash)` deletes every entry
whose name is not `keep_hash`, whatever its naming pattern. -/
def prune (dir : List String) (keep : String) : List String :=
  dir.filter (fun n => n = keep)

/-- The Finalize step (spec §4.2 step 6): store the new artifact under its
content hash, then prune the namespace keeping only that hash. -/
def finalizeCache (dir : List String) (hash : String) : List String :=
  prune (cacheStore dir hash) hash

/-! ## UploadPlanner (spec §4.2, §6, §7)

Modelled from the spec: the push workflow of `snapcraft/_store.py` is not in
the source excerpt; only `tests/unit/commands/test_push.py` is. -/

/-- The failure kinds distinguished by the workflow's error taxonomy
(spec §7): the three delta-recoverable kinds, the unregistered-name precheck
failure, and any other store-side error carried with its HTTP-like status. -/
inductive UploadFailure : Type where
  | deltaApplication : UploadFailure
  | deltaUpload : UploadFailure
  | featureDisabled : UploadFailure
  | notRegistered : UploadFailure
  | serverError : Nat → UploadFailure
  deriving DecidableEq, Repr

/-- Recoverable-by-fallback classification (spec §7): delta-application
failure, delta-upload failure and the feature-disabled (501) response are
retried once as a full upload; nothing else is. -/
def recoverableByFallback : UploadFailure → Bool
  | .deltaApplication => true
  | .deltaUpload => true
  | .featureDisabled => true
  | _ => false

/-- One call to the store collaborator's `upload` (spec §6): the channel list
and the four optional delta fields of the upload signature. -/
structure UploadCall where
  channels : List String
  delta_format : Option String
  delta_hash : Option String
  source_hash : Option String
  target_hash : Option String
  deriving DecidableEq, Repr

/-- A full upload: full artifact bytes, no delta fields (spec §4.2 step 5). -/
def fullUploadCall (channels : List String) : UploadCall :=
  ⟨channels, none, none, none, none⟩

/-- A delta upload (spec §4.2 step 4): delta format `xdelta3` (as asserted by
the tests), the delta's own hash, and the source/target content hashes. -/
def deltaUploadCall (channels : List String) (src tgt : String) : UploadCall :=
  ⟨channels, some "xdelta3", some ("delta-" ++ src ++ "-" ++ tgt), some src, some tgt⟩

/-- UploadOutcome (spec §3): revision, channels released to, and whether a
delta was used. -/
structure UploadOutcome where
  revision : Nat
  channels : List String
  usedDelta : Bool
  deriving DecidableEq, Repr

/-- The store collaborator's answer to one upload call: a revision on
success, a classified failure otherwise. -/
abbrev StoreResponse := Except UploadFailure Nat

/-- The observable result of one workflow invocation: the upload calls made,
in order; the outcome surfaced to the caller; and the namespace's cache
directory after the invocation. -/
structure PushResult where
  calls : List UploadCall
  outcome : Except UploadFailure UploadOutcome
  cache : List String
  deriving Repr

/-- Modelled from the spec: the UploadPlanner state machine (spec §4.2).
`deltaOk` is whether the local delta computation succeeds; `resp1` answers the
first store call and `resp2` the second (there are never more than two).
CheckCache consults `find_previous`; an empty namespace, or a local delta
computation failure, goes straight to FullUpload; a delta upload that fails
recoverably falls back to one full upload with the same channels; any other
failure propagates; Finalize stores and prunes the cache only after a
successful upload. -/
def pushWorkflow (artifact : List Nat) (channels : List String)
    (cacheDir : List String) (deltaOk : Bool)
    (resp1 resp2 : StoreResponse) : PushResult :=
  let tgt := contentHash artifact
  let fullFirst : PushResult :=
    match resp1 with
    | .ok rev =>
      ⟨[fullUploadCall channels], .ok ⟨rev, channels, false⟩, finalizeCache cacheDir tgt⟩
    | .error e => ⟨[fullUploadCall channels], .error e, cacheDir⟩
  match find_previous cacheDir with
  | none => fullFirst
  | some src =>
    if deltaOk then
      let dcall := deltaUploadCall channels src tgt
      match resp1 with
      | .ok rev => ⟨[dcall], .ok ⟨rev, channels, true⟩, finalizeCache cacheDir tgt⟩
      | .error e =>
        if recoverableByFallback e then
          match resp2 with
          | .ok rev =>
            ⟨[dcall, fullUploadCall channels], .ok ⟨rev, channels, false⟩,
              finalizeCache cacheDir tgt⟩
          | .error e2 => ⟨[dcall, fullUploadCall channels], .error e2, cacheDir⟩
        else ⟨[dcall], .error e, cacheDir⟩
    else fullFirst

/-- Result of the store's push precheck: fine, name unregistered
(HTTP 404 `resource-not-found`), or some other store error. -/
inductive PrecheckResult : Type where
  | ok : PrecheckResult
  | notRegistered : PrecheckResult
  | otherError : UploadFailure → PrecheckResult
  deriving DecidableEq, Repr

/-- The splitting of a character list at each comma, accumulator-style — the
behavior of Python's `release.split(",")`. -/
def splitCommaChars : List Char → List Char → List (List Char)
  | [], acc => [acc.reverse]
  | c :: cs, acc =>
    if c = ',' then acc.reverse :: splitCommaChars cs []
    else splitCommaChars cs (c :: acc)

/-- The channel list of the CLI `--release` option: the comma-separated list
split in order (`release.split(",")`); no release request means an empty
channel list. -/
def parseChannels : Option String → List String
  | none => []
  | some s => (splitCommaChars s.data []).map String.mk

/-- The observable result of one CLI push invocation: how many register calls
were made, plus the workflow's observables. -/
structure CommandResult where
  registerCalls : Nat
  calls : List UploadCall
  outcome : Except UploadFailure UploadOutcome
  cache : List String
  deriving Repr

/-- Modelled from the spec: the CLI push command (spec §6 CLI behavior, §7
Registration-required).  The precheck runs first; on a 404
`resource-not-found` the operator is prompted: if they agree, the name is
registered once and the push proceeds; if they decline, the push error is
raised and no register call is made.  Other precheck failures propagate.
On a passing precheck the upload workflow runs with the parsed channels. -/
def pushCommand (release : Option String) (artifact : List Nat)
    (cacheDir : List String) (deltaOk : Bool) (resp1 resp2 : StoreResponse)
    (precheck : PrecheckResult) (agreeToRegister : Bool) : CommandResult :=
  let channels := parseChannels release
  match precheck with
  | .ok =>
    let r := pushWorkflow artifact channels cacheDir deltaOk resp1 resp2
    ⟨0, r.calls, r.outcome, r.cache⟩
  | .notRegistered =>
    if agreeToRegister then
      let r := pushWorkflow artifact channels cacheDir deltaOk resp1 resp2
      ⟨1, r.calls, r.outcome, r.cache⟩
    else ⟨0, [], .error .notRegistered, cacheDir⟩
  | .otherError e => ⟨0, [], .error e, cacheDir⟩

/-- N consecutive push invocations whose uploads all succeed, threading the
namespace's cache directory through (spec §8, cache monotonicity). -/
def pushManySucceeding (arts : List (List Nat)) (dir : List String) : List String :=
  arts.foldl (fun d a => (pushWorkflow a [] d true (.ok 9) (.ok 9)).cache) dir

/-- Cache directory layout (spec §6): the path components of a cached
artifact's location. -/
def cachePathComponents (root proj arch hash : String) : List String :=
  [root, proj, "snap_hashes", arch, hash]

/-- The cached artifact's full path:
`<cache-root>/<project-name>/snap_hashes/<architecture>/<content-hash>`. -/
def cachePath (root proj arch hash : String) : String :=
  String.intercalate "/" (cachePathComponents root proj arch hash)

/-- A concrete app entry used to instantiate the theorems: it carries an
`adapter` and a `desktop` property, both command chains, a passthrough
binding and a command. -/
def sampleApp : Application :=
  { app_name := "app"
    app_properties :=
      [("adapter", Val.str "full"), ("desktop", Val.str "app.desktop"),
       ("plugs", Val.list ["home"])]
    adapter := some "full"
    desktop := some "app.desktop"
    command_chain := ["snap/command-chain/snap-env"]
    prepend_command_chain := ["bin/hook"]
    passthrough := [("license", Val.str "MIT")]
    commands := [("command", "bin/run")] }

/-! ## Dictionary lemmas -/

theorem updateD_cons (d : List (String × Val)) (kv : String × Val)
    (p : List (String × Val)) :
    updateD d (kv :: p) = updateD (setKey d kv.1 kv.2) p := rfl

theorem lookupD_setKey_self (d : List (String × Val)) (k : String) (v : Val) :
    lookupD (setKey d k v) k = some v := by
  induction d with
  | nil => simp [setKey, lookupD]
  | cons kv rest ih =>
    rw [setKey]
    by_cases hk : kv.1 = k
    · rw [if_pos hk, lookupD, if_pos rfl]
    · rw [if_neg hk, lookupD, if_neg hk]
      exact ih

theorem lookupD_setKey_other (d : List (String × Val)) (k k' : String) (v : Val)
    (h : k' ≠ k) : lookupD (setKey d k v) k' = lookupD d k' := by
  induction d with
  | nil =>
    show (if k = k' then some v else lookupD [] k') = lookupD [] k'
    rw [if_neg (fun hk : k = k' => h hk.symm)]
  | cons kv rest ih =>
    rw [setKey]
    by_cases hk : kv.1 = k
    · rw [if_pos hk, lookupD, lookupD,
        if_neg (fun hkk : k = k' => h hkk.symm),
        if_neg (fun hkk : kv.1 = k' => h (hk ▸ hkk).symm)]
    · rw [if_neg hk, lookupD, lookupD]
      by_cases hk' : kv.1 = k'
      · rw [if_pos hk', if_pos hk']
      · rw [if_neg hk', if_neg hk']
        exact ih

theorem lookupD_removeKey_self (d : List (String × Val)) (k : String) :
    lookupD (removeKey d k) k = none := by
  induction d with
  | nil => rw [removeKey, lookupD]
  | cons kv rest ih =>
    rw [removeKey]
    by_cases hk : kv.1 = k
    · rw [if_pos hk]; exact ih
    · rw [if_neg hk, lookupD, if_neg hk]; exact ih

theorem lookupD_removeKey_other (d : List (String × Val)) (k k' : String)
    (h : k' ≠ k) : lookupD (removeKey d k) k' = lookupD d k' := by
  induction d with
  | nil => rw [removeKey]
  | cons kv rest ih =>
    rw [removeKey]
    by_cases hk : kv.1 = k
    · rw [if_pos hk, lookupD,
        if_neg (fun hkk : kv.1 = k' => h ((hk ▸ hkk : k = k')).symm)]
      exact ih
    · rw [if_neg hk, lookupD, lookupD]
      by_cases hk' : kv.1 = k'
      · rw [if_pos hk', if_pos hk']
      · rw [if_neg hk', if_neg hk']
        exact ih

theorem lookupD_adjustSockets (d : List (String × Val)) (k : String)
    (h : k ≠ "sockets") : lookupD (adjustSockets d) k = lookupD d k := by
  induction d with
  | nil => rw [adjustSockets]
  | cons kv rest ih =>
    rw [adjustSockets]
    by_cases hs : kv.1 = "sockets"
    · have hkk : ¬kv.1 = k := fun hkk => h ((hkk ▸ hs : k = "sockets"))
      rw [if_pos hs, lookupD, lookupD, if_neg hkk, if_neg (by exact hs ▸ hkk)]
      exact ih
    · rw [if_neg hs, lookupD, lookupD]
      by_cases hk : kv.1 = k
      · rw [if_pos hk, if_pos hk]
      · rw [if_neg hk, if_neg hk]
        exact ih

theorem lookupD_updateD_of_not_mem (p d : List (String × Val)) (k : String)
    (h : k ∉ p.map Prod.fst) : lookupD (updateD d p) k = lookupD d k := by
  induction p generalizing d with
  | nil => rfl
  | cons kv rest ih =>
    have hne : k ≠ kv.1 := fun hk => h (by simp [hk])
    have hrest : k ∉ rest.map Prod.fst := fun hk => h (by simp [hk])
    rw [updateD_cons]
    calc lookupD (updateD (setKey d kv.1 kv.2) rest) k
        = lookupD (setKey d kv.1 kv.2) k := ih _ hrest
      _ = lookupD d k := lookupD_setKey_other _ _ _ _ hne

theorem lookupD_updateD_of_mem (p d : List (String × Val)) (k : String) (v : Val)
    (hnd : (p.map Prod.fst).Nodup) (hmem : (k, v) ∈ p) :
    lookupD (updateD d p) k = some v := by
  induction p generalizing d with
  | nil => cases hmem
  | cons kv rest ih =>
    rw [List.map_cons, List.nodup_cons] at hnd
    rw [updateD_cons]
    rcases List.mem_cons.mp hmem with heq | hrest
    · have hk : kv.1 = k := by rw [← heq]
      have hnotin : k ∉ rest.map Prod.fst := hk ▸ hnd.1
      rw [lookupD_updateD_of_not_mem _ _ _ hnotin, ← heq]
      exact lookupD_setKey_self _ _ _
    · exact ih _ hnd.2 hrest

/-! ## C10: `Application.to_dict` -/

/-- C10: for every Application, `to_dict` returns a dictionary with the
`adapter` and `desktop` keys removed, the `command-chain` key equal to
`prepend_command_chain ++ command_chain` whenever either is non-empty, and the
passthrough bindings applied last so that a passthrough key overrides any
other value for the same key.  (The removal and command-chain clauses are
stated for keys the passthrough does not override, exactly as the code layers
them; the no-mutation clause of the claim is the deep copy, rendered here by
the value semantics of the embedding.) -/
theorem to_dict_strips_merges_and_passthrough (a : Application) :
    ("adapter" ∉ a.passthrough.map Prod.fst →
      lookupD a.to_dict "adapter" = none) ∧
    ("desktop" ∉ a.passthrough.map Prod.fst →
      lookupD a.to_dict "desktop" = none) ∧
    ((a.prepend_command_chain ≠ [] ∨ a.command_chain ≠ []) →
      "command-chain" ∉ a.passthrough.map Prod.fst →
      lookupD a.to_dict "command-chain"
        = some (Val.list (a.prepend_command_chain ++ a.command_chain))) ∧
    ((a.passthrough.map Prod.fst).Nodup →
      ∀ k v, (k, v) ∈ a.passthrough → lookupD a.to_dict k = some v) := by
  refine ⟨?_, ?_, ?_, ?_⟩
  · intro hpt
    show lookupD (updateD _ a.passthrough) "adapter" = none
    rw [lookupD_updateD_of_not_mem _ _ _ hpt,
      lookupD_removeKey_other _ _ _ (by decide),
      lookupD_removeKey_self]
  · intro hpt
    show lookupD (updateD _ a.passthrough) "desktop" = none
    rw [lookupD_updateD_of_not_mem _ _ _ hpt, lookupD_removeKey_self]
  · intro hcc hpt
    show lookupD (updateD _ a.passthrough) "command-chain"
        = some (Val.list (a.prepend_command_chain ++ a.command_chain))
    rw [lookupD_updateD_of_not_mem _ _ _ hpt,
      lookupD_removeKey_other _ _ _ (by decide),
      lookupD_removeKey_other _ _ _ (by decide),
      lookupD_adjustSockets _ _ (by decide), if_pos hcc,
      lookupD_setKey_self]
  · intro hnd k v hmem
    exact lookupD_updateD_of_mem _ _ _ _ hnd hmem

/-- C10 witness: the sample app's `to_dict` has no `adapter` key, carries the
concatenated command chain, and keeps the passthrough binding. -/
theorem to_dict_strips_merges_and_passthrough_witness :
    lookupD sampleApp.to_dict "adapter" = none ∧
    lookupD sampleApp.to_dict "command-chain"
      = some (Val.list (["bin/hook"] ++ ["snap/command-chain/snap-env"])) ∧
    lookupD sampleApp.to_dict "license" = some (Val.str "MIT") := by
  have h := to_dict_strips_merges_and_passthrough sampleApp
  refine ⟨h.1 (by simp [sampleApp]), ?_, ?_⟩
  · exact h.2.2.1 (by simp [sampleApp]) (by simp [sampleApp])
  · exact h.2.2.2 (by simp [sampleApp]) "license" (Val.str "MIT")
      (List.mem_singleton.mpr rfl)

/-! ## Cache lemmas -/

theorem filter_eq_nil_of_not_mem (l : List String) (x : String) (h : x ∉ l) :
    l.filter (fun n => n = x) = [] := by
  induction l with
  | nil => rfl
  | cons a rest ih =>
    rw [List.filter_cons]
    have ha : ¬(a = x) := fun hax => h (by simp [hax])
    simp only [ha, decide_False]
    exact ih (fun hx => h (List.mem_cons_of_mem _ hx))

theorem filter_eq_singleton_of_nodup (l : List String) (x : String)
    (hnd : l.Nodup) (hx : x ∈ l) : l.filter (fun n => n = x) = [x] := by
  induction l with
  | nil => cases hx
  | cons a rest ih =>
    rw [List.nodup_cons] at hnd
    rw [List.filter_cons]
    rcases List.mem_cons.mp hx with heq | hrest
    · subst heq
      rw [if_pos (by simp), filter_eq_nil_of_not_mem rest x hnd.1]
    · have ha : ¬(a = x) := fun hax => hnd.1 (hax ▸ hrest)
      simp only [ha, decide_False]
      exact ih hnd.2 hrest

theorem finalizeCache_single (dir : List String) (hash : String)
    (hnd : dir.Nodup) : finalizeCache dir hash = [hash] := by
  unfold finalizeCache cacheStore prune
  by_cases hmem : hash ∈ dir
  · rw [if_pos hmem]
    exact filter_eq_singleton_of_nodup dir hash hnd hmem
  · rw [if_neg hmem, List.filter_append, filter_eq_nil_of_not_mem dir hash hmem]
    simp

theorem pushWorkflow_cache_of_ok (artifact : List Nat) (channels : List String)
    (cacheDir : List String) (deltaOk : Bool) (r1 r2 : StoreResponse)
    (out : UploadOutcome)
    (h : (pushWorkflow artifact channels cacheDir deltaOk r1 r2).outcome = .ok out) :
    (pushWorkflow artifact channels cacheDir deltaOk r1 r2).cache
      = finalizeCache cacheDir (contentHash artifact) := by
  cases hfp : find_previous cacheDir with
  | none => cases r1 <;> simp_all [pushWorkflow, hfp]
  | some src =>
    cases deltaOk with
    | false => cases r1 <;> simp_all [pushWorkflow, hfp]
    | true =>
      cases r1 with
      | ok rev => simp_all [pushWorkflow, hfp]
      | error e =>
        cases hrec : recoverableByFallback e with
        | false => simp_all [pushWorkflow, hfp, hrec]
        | true => cases r2 <;> simp_all [pushWorkflow, hfp, hrec]

theorem pushWorkflow_channels (artifact : List Nat) (channels : List String)
    (cacheDir : List String) (deltaOk : Bool) (r1 r2 : StoreResponse) :
    ∀ c ∈ (pushWorkflow artifact channels cacheDir deltaOk r1 r2).calls,
      c.channels = channels := by
  intro c hc
  cases hfp : find_previous cacheDir with
  | none =>
    cases r1 <;> simp [pushWorkflow, hfp] at hc <;> subst hc <;> rfl
  | some src =>
    cases deltaOk with
    | false => cases r1 <;> simp [pushWorkflow, hfp] at hc <;> subst hc <;> rfl
    | true =>
      cases r1 with
      | ok rev =>
        simp [pushWorkflow, hfp] at hc
        subst hc; rfl
      | error e =>
        cases hrec : recoverableByFallback e with
        | false =>
          simp [pushWorkflow, hfp, hrec] at hc
          subst hc; rfl
        | true =>
          cases r2 <;> simp [pushWorkflow, hfp, hrec] at hc <;>
            rcases hc with hc | hc <;> subst hc <;> rfl

/-! ## Claims about the push workflow -/

/-- Claim C1: if a delta upload fails with a delta-application error, a
delta-upload error or a feature-disabled (501) response, exactly one
subsequent full upload is made — at most two upload attempts total — carrying
the identical channel list and no delta fields, and the invocation succeeds if
that full upload succeeds; the delta failure is not surfaced. -/
theorem delta_failure_falls_back_to_full (artifact : List Nat)
    (channels : List String) (cacheDir : List String) (src : String)
    (e : UploadFailure) (r2 : StoreResponse)
    (hfp : find_previous cacheDir = some src)
    (he : e = .deltaApplication ∨ e = .deltaUpload ∨ e = .featureDisabled) :
    (pushWorkflow artifact channels cacheDir true (.error e) r2).calls
      = [deltaUploadCall channels src (contentHash artifact),
         fullUploadCall channels] ∧
    (∀ rev, r2 = .ok rev →
      (pushWorkflow artifact channels cacheDir true (.error e) r2).outcome
        = .ok ⟨rev, channels, false⟩) := by
  have hrec : recoverableByFallback e = true := by
    rcases he with h | h | h <;> subst h <;> rfl
  constructor
  · cases r2 <;> simp [pushWorkflow, hfp, hrec]
  · intro rev h2
    subst h2
    simp [pushWorkflow, hfp, hrec]

/-- Claim C1 witness: a delta-application failure followed by a successful
full upload, on a namespace with one cached artifact. -/
theorem delta_failure_falls_back_to_full_witness :
    (pushWorkflow [1] ["beta"] [contentHash [0]] true
        (.error .deltaApplication) (.ok 9)).calls
      = [deltaUploadCall ["beta"] (contentHash [0]) (contentHash [1]),
         fullUploadCall ["beta"]] ∧
    (pushWorkflow [1] ["beta"] [contentHash [0]] true
        (.error .deltaApplication) (.ok 9)).outcome
      = .ok ⟨9, ["beta"], false⟩ := by
  have h := delta_failure_falls_back_to_full [1] ["beta"] [contentHash [0]]
    (contentHash [0]) .deltaApplication (.ok 9) (by decide) (Or.inl rfl)
  exact ⟨h.1, h.2 9 rfl⟩

/-- Claim C2: after a successful upload-and-finalize cycle exactly one cache
entry exists in the namespace — the just-uploaded artifact's content hash —
and every other pre-existing file is deleted regardless of its name; after N
consecutive successful uploads the single entry is the Nth artifact's hash. -/
theorem cache_prune_invariant :
    (∀ (artifact : List Nat) (channels : List String) (cacheDir : List String)
        (deltaOk : Bool) (r1 r2 : StoreResponse) (out : UploadOutcome),
      cacheDir.Nodup →
      (pushWorkflow artifact channels cacheDir deltaOk r1 r2).outcome = .ok out →
      (pushWorkflow artifact channels cacheDir deltaOk r1 r2).cache
        = [contentHash artifact]) ∧
    (∀ (arts : List (List Nat)) (a : List Nat) (dir : List String),
      dir.Nodup → pushManySucceeding (arts ++ [a]) dir = [contentHash a]) := by
  have hsingle : ∀ (a : List Nat) (dir : List String),
      (pushWorkflow a [] dir true (.ok 9) (.ok 9)).cache
        = finalizeCache dir (contentHash a) := by
    intro a dir
    cases hfp : find_previous dir <;> simp [pushWorkflow, hfp]
  constructor
  · intro artifact channels cacheDir deltaOk r1 r2 out hnd h
    rw [pushWorkflow_cache_of_ok artifact channels cacheDir deltaOk r1 r2 out h,
      finalizeCache_single _ _ hnd]
  · intro arts a dir hnd
    induction arts generalizing dir with
    | nil =>
      have hstep : pushManySucceeding [a] dir
          = (pushWorkflow a [] dir true (.ok 9) (.ok 9)).cache := rfl
      rw [List.nil_append, hstep, hsingle a dir, finalizeCache_single _ _ hnd]
    | cons b rest ih =>
      have hstep : pushManySucceeding ((b :: rest) ++ [a]) dir
          = pushManySucceeding (rest ++ [a])
              ((pushWorkflow b [] dir true (.ok 9) (.ok 9)).cache) := rfl
      rw [hstep, hsingle b dir, finalizeCache_single _ _ hnd]
      exact ih [contentHash b] (List.nodup_singleton _)

/-- Claim C2 witness: a push over a namespace holding a garbage file leaves
exactly the new hash, and two consecutive pushes leave the second hash. -/
theorem cache_prune_invariant_witness :
    (pushWorkflow [2] [] ["stale-file.snap"] true (.ok 9) (.ok 9)).cache
      = [contentHash [2]] ∧
    pushManySucceeding [[0], [1]] [] = [contentHash [1]] := by
  have h := cache_prune_invariant
  exact ⟨h.1 [2] [] ["stale-file.snap"] true (.ok 9) (.ok 9) ⟨9, [], false⟩
      (by decide) rfl,
    h.2 [[0]] [1] [] (by decide)⟩

/-- Claim C3: on a namespace with no previously cached artifact no delta is
ever attempted — exactly one upload call is made, a full upload whose
`delta_format`, `delta_hash`, `source_hash` and `target_hash` are all None. -/
theorem empty_cache_goes_straight_to_full_upload (artifact : List Nat)
    (channels : List String) (deltaOk : Bool) (r1 r2 : StoreResponse) :
    (pushWorkflow artifact channels [] deltaOk r1 r2).calls
      = [fullUploadCall channels] ∧
    (fullUploadCall channels).delta_format = none ∧
    (fullUploadCall channels).delta_hash = none ∧
    (fullUploadCall channels).source_hash = none ∧
    (fullUploadCall channels).target_hash = none := by
  refine ⟨?_, rfl, rfl, rfl, rfl⟩
  cases r1 <;> simp [pushWorkflow, find_previous]

/-- Claim C4: cache mutation happens only after a confirmed successful
upload — a failed invocation leaves the namespace's cache state identical. -/
theorem failed_push_leaves_cache_untouched (artifact : List Nat)
    (channels : List String) (cacheDir : List String) (deltaOk : Bool)
    (r1 r2 : StoreResponse) (e : UploadFailure)
    (h : (pushWorkflow artifact channels cacheDir deltaOk r1 r2).outcome
      = .error e) :
    (pushWorkflow artifact channels cacheDir deltaOk r1 r2).cache = cacheDir := by
  cases hfp : find_previous cacheDir with
  | none => cases r1 <;> simp_all [pushWorkflow, hfp]
  | some src =>
    cases deltaOk with
    | false => cases r1 <;> simp_all [pushWorkflow, hfp]
    | true =>
      cases r1 with
      | ok rev => simp_all [pushWorkflow, hfp]
      | error e1 =>
        cases hrec : recoverableByFallback e1 with
        | false => simp_all [pushWorkflow, hfp, hrec]
        | true => cases r2 <;> simp_all [pushWorkflow, hfp, hrec]

/-- Claim C4 witness: when both the delta attempt and the fallback are out of
the question (an unrecoverable delta failure), the previous entry stays. -/
theorem failed_push_leaves_cache_untouched_witness :
    (pushWorkflow [1] [] [contentHash [0]] true
        (.error (.serverError 503)) (.ok 9)).cache = [contentHash [0]] :=
  failed_push_leaves_cache_untouched [1] [] [contentHash [0]] true
    (.error (.serverError 503)) (.ok 9) (.serverError 503) rfl

/-- Claim C5: a failure of the local delta computation is never fatal — the
workflow proceeds to a full upload with no delta fields and succeeds if that
full upload succeeds. -/
theorem delta_computation_failure_not_fatal (artifact : List Nat)
    (channels : List String) (cacheDir : List String) (src : String)
    (r1 r2 : StoreResponse)
    (hfp : find_previous cacheDir = some src) :
    (pushWorkflow artifact channels cacheDir false r1 r2).calls
      = [fullUploadCall channels] ∧
    (∀ rev, r1 = .ok rev →
      (pushWorkflow artifact channels cacheDir false r1 r2).outcome
        = .ok ⟨rev, channels, false⟩) := by
  constructor
  · cases r1 <;> simp [pushWorkflow, hfp]
  · intro rev h1
    subst h1
    simp [pushWorkflow, hfp]

/-- Claim C5 witness: delta generation fails over a cached artifact; the one
full upload succeeds and so does the invocation. -/
theorem delta_computation_failure_not_fatal_witness :
    (pushWorkflow [1] ["edge"] [contentHash [0]] false (.ok 9) (.ok 9)).calls
      = [fullUploadCall ["edge"]] ∧
    (pushWorkflow [1] ["edge"] [contentHash [0]] false (.ok 9) (.ok 9)).outcome
      = .ok ⟨9, ["edge"], false⟩ := by
  have h := delta_computation_failure_not_fatal [1] ["edge"] [contentHash [0]]
    (contentHash [0]) (.ok 9) (.ok 9) (by decide)
  exact ⟨h.1, h.2 9 rfl⟩

/-- Claim C6: any upload failure not classified as delta-application,
delta-upload or feature-disabled propagates unchanged and aborts the
workflow — no fallback call is made, on either the delta or the full path. -/
theorem unrecognized_failure_propagates (artifact : List Nat)
    (channels : List String) (cacheDir : List String) (e : UploadFailure)
    (r2 : StoreResponse)
    (hrec : recoverableByFallback e = false) :
    (∀ src, find_previous cacheDir = some src →
      (pushWorkflow artifact channels cacheDir true (.error e) r2).outcome
          = .error e ∧
      (pushWorkflow artifact channels cacheDir true (.error e) r2).calls
          = [deltaUploadCall channels src (contentHash artifact)]) ∧
    (find_previous cacheDir = none →
      (pushWorkflow artifact channels cacheDir true (.error e) r2).outcome
          = .error e ∧
      (pushWorkflow artifact channels cacheDir true (.error e) r2).calls
          = [fullUploadCall channels]) := by
  constructor
  · intro src hfp
    constructor <;> simp [pushWorkflow, hfp, hrec]
  · intro hfp
    constructor <;> simp [pushWorkflow, hfp, hrec]

/-- Claim C6 witness: a 5xx server error on the delta attempt aborts with
that very error after a single call. -/
theorem unrecognized_failure_propagates_witness :
    (pushWorkflow [1] [] [contentHash [0]] true
        (.error (.serverError 500)) (.ok 9)).outcome
      = .error (.serverError 500) ∧
    (pushWorkflow [1] [] [contentHash [0]] true
        (.error (.serverError 500)) (.ok 9)).calls
      = [deltaUploadCall [] (contentHash [0]) (contentHash [1])] := by
  have h := unrecognized_failure_propagates [1] [] [contentHash [0]]
    (.serverError 500) (.ok 9) (by decide)
  exact h.1 (contentHash [0]) (by decide)

/-- Claim C7: a 404 resource-not-found precheck prompts the operator: on
agreement the name is registered exactly once and the push proceeds (to
success when the upload succeeds); on refusal the push error is raised and no
register call is made. -/
theorem unregistered_snap_prompts_operator (release : Option String)
    (artifact : List Nat) (cacheDir : List String) (deltaOk : Bool)
    (r1 r2 : StoreResponse) :
    ((pushCommand release artifact cacheDir deltaOk r1 r2
          .notRegistered true).registerCalls = 1 ∧
      (pushCommand release artifact cacheDir deltaOk r1 r2
          .notRegistered true).outcome
        = (pushWorkflow artifact (parseChannels release) cacheDir deltaOk
            r1 r2).outcome ∧
      (∀ rev, r1 = .ok rev → find_previous cacheDir = none →
        (pushCommand release artifact cacheDir deltaOk r1 r2
            .notRegistered true).outcome
          = .ok ⟨rev, parseChannels release, false⟩)) ∧
    ((pushCommand release artifact cacheDir deltaOk r1 r2
          .notRegistered false).registerCalls = 0 ∧
      (pushCommand release artifact cacheDir deltaOk r1 r2
          .notRegistered false).outcome = .error .notRegistered ∧
      (pushCommand release artifact cacheDir deltaOk r1 r2
          .notRegistered false).calls = []) := by
  refine ⟨⟨rfl, rfl, ?_⟩, rfl, rfl, rfl⟩
  intro rev h1 hfp
  subst h1
  simp [pushCommand, pushWorkflow, hfp]

/-- Claim C7 witness: with an agreeing operator the register call happens
once and the push succeeds; with a declining operator nothing is registered
and the error is raised. -/
theorem unregistered_snap_prompts_operator_witness :
    (pushCommand (some "beta") [1] [] true (.ok 9) (.ok 9)
        .notRegistered true).registerCalls = 1 ∧
    (pushCommand (some "beta") [1] [] true (.ok 9) (.ok 9)
        .notRegistered true).outcome
      = .ok ⟨9, parseChannels (some "beta"), false⟩ ∧
    (pushCommand (some "beta") [1] [] true (.ok 9) (.ok 9)
        .notRegistered false).registerCalls = 0 ∧
    (pushCommand (some "beta") [1] [] true (.ok 9) (.ok 9)
        .notRegistered false).outcome = .error .notRegistered := by
  have h := unregistered_snap_prompts_operator (some "beta") [1] [] true
    (.ok 9) (.ok 9)
  exact ⟨h.1.1, h.1.2.2 9 rfl (by decide), h.2.1, h.2.2.1⟩

/-- Claim C8: the channel list of a release request — the comma-separated
option split in order, empty when absent — accompanies every upload call the
invocation makes. -/
theorem release_channels_accompany_uploads (release : Option String)
    (artifact : List Nat) (cacheDir : List String) (deltaOk : Bool)
    (r1 r2 : StoreResponse) (agree : Bool) :
    (∀ c ∈ (pushCommand release artifact cacheDir deltaOk r1 r2 .ok agree).calls,
      c.channels = parseChannels release) ∧
    parseChannels none = [] ∧
    parseChannels (some "edge,beta,candidate") = ["edge", "beta", "candidate"] := by
  refine ⟨?_, rfl, by decide⟩
  intro c hc
  have hcalls : (pushCommand release artifact cacheDir deltaOk r1 r2
      .ok agree).calls
    = (pushWorkflow artifact (parseChannels release) cacheDir deltaOk
        r1 r2).calls := rfl
  rw [hcalls] at hc
  exact pushWorkflow_channels artifact (parseChannels release) cacheDir
    deltaOk r1 r2 c hc

/-- Claim C8 witness: pushing with `--release edge,beta,candidate` makes the
full-upload call carry exactly that split list. -/
theorem release_channels_accompany_uploads_witness :
    (fullUploadCall ["edge", "beta", "candidate"]).channels
      = parseChannels (some "edge,beta,candidate") :=
  (release_channels_accompany_uploads (some "edge,beta,candidate") [1] [] true
      (.ok 9) (.ok 9) true).1
    (fullUploadCall ["edge", "beta", "candidate"]) (by decide)

/-- Claim C9: after a successful upload the artifact is cached as the single
file named by its content hash, at
`<cache-root>/<project-name>/snap_hashes/<architecture>/<content-hash>`,
whose final path component is the content hash. -/
theorem artifact_cached_at_hash_path (artifact : List Nat)
    (channels : List String) (cacheDir : List String) (deltaOk : Bool)
    (r1 r2 : StoreResponse) (out : UploadOutcome) (root proj arch : String)
    (hnd : cacheDir.Nodup)
    (h : (pushWorkflow artifact channels cacheDir deltaOk r1 r2).outcome
      = .ok out) :
    (pushWorkflow artifact channels cacheDir deltaOk r1 r2).cache
      = [contentHash artifact] ∧
    cachePath root proj arch (contentHash artifact)
      = root ++ "/" ++ proj ++ "/" ++ "snap_hashes" ++ "/" ++ arch ++ "/"
        ++ contentHash artifact ∧
    (cachePathComponents root proj arch (contentHash artifact)).getLast?
      = some (contentHash artifact) := by
  refine ⟨?_, ?_, by simp [cachePathComponents]⟩
  · rw [pushWorkflow_cache_of_ok artifact channels cacheDir deltaOk r1 r2 out h,
      finalizeCache_single _ _ hnd]
  · simp [cachePath, cachePathComponents, String.intercalate,
      String.intercalate.go]

/-- Claim C9 witness: a successful first push caches the artifact under its
hash, and the layout places that hash as the path's final component. -/
theorem artifact_cached_at_hash_path_witness :
    (pushWorkflow [3] [] [] true (.ok 9) (.ok 9)).cache = [contentHash [3]] ∧
    cachePath "cache-root" "basic" "amd64" (contentHash [3])
      = "cache-root" ++ "/" ++ "basic" ++ "/" ++ "snap_hashes" ++ "/"
        ++ "amd64" ++ "/" ++ contentHash [3] ∧
    (cachePathComponents "cache-root" "basic" "amd64"
        (contentHash [3])).getLast? = some (contentHash [3]) :=
  artifact_cached_at_hash_path [3] [] [] true (.ok 9) (.ok 9) ⟨9, [], false⟩
    "cache-root" "basic" "amd64" (by decide) rfl

end Snapcraft
